import Mathlib

/-!
Shallow embedding of `src/priceworm-dashboard.py` (class `CryptoDataFetcher`).
Python floats are modelled as rationals; `None` as `Option.none`; the
two-key dicts `recent_liquidations` / `reference_643am` as structures with
one field per key.  Mutating methods are modelled as state-passing
functions.
-/

namespace Wormboard

/-- Mirrors the `PriceData` dataclass (lines 23-29). -/
structure PriceData where
  price : ℚ
  change_24h : ℚ
  volume : ℚ
  market_cap : ℚ
  timestamp : String
deriving Repr, DecidableEq

/-- Mirrors the `FundingData` dataclass (lines 31-36); every field defaults
to `None` in the source. -/
structure FundingData where
  binance : Option ℚ := none
  bybit : Option ℚ := none
  okx : Option ℚ := none
  average : Option ℚ := none
deriving Repr, DecidableEq

/-- Mirrors the `LiquidationEvent` dataclass (lines 38-46). -/
structure LiquidationEvent where
  symbol : String
  side : String
  quantity : ℚ
  price : ℚ
  value : ℚ
  time : String
  exchange : String
deriving Repr, DecidableEq

/-- The `self.recent_liquidations` dict (lines 75-78): one bounded list per
instrument key. -/
structure LiquidationState where
  bitcoin : List LiquidationEvent
  ethereum : List LiquidationEvent
deriving Repr, DecidableEq

/-- A local wall-clock instant, as read by `datetime.now().astimezone()`
in `capture_643am_price` (line 242). -/
structure LocalTime where
  hour : ℕ
  minute : ℕ
  second : ℕ
deriving Repr, DecidableEq

/-- The `self.reference_643am` dict (lines 68-72): per-instrument optional
anchor price plus an optional capture instant. -/
structure ReferenceAnchor where
  bitcoin : Option ℚ
  ethereum : Option ℚ
  timestamp : Option LocalTime
deriving Repr, DecidableEq

/-- Mirrors the `MarketData` dataclass (lines 48-56); the two-key dicts
`funding_rates` and `liquidations` are split into one field per key. -/
structure MarketData where
  bitcoin : PriceData
  ethereum : PriceData
  funding_bitcoin : FundingData
  funding_ethereum : FundingData
  liq_bitcoin : List LiquidationEvent
  liq_ethereum : List LiquidationEvent
  sentiment_score : ℤ
  reference_643am : ReferenceAnchor
  timestamp : String
deriving Repr, DecidableEq

/-- Python's built-in `round`: round half to even (used at line 303). -/
def pyRound (q : ℚ) : ℤ :=
  if q - ⌊q⌋ < 1/2 then ⌊q⌋
  else if 1/2 < q - ⌊q⌋ then ⌊q⌋ + 1
  else if ⌊q⌋ % 2 = 0 then ⌊q⌋ else ⌊q⌋ + 1

/-- `long_liqs` at line 272: number of events whose `side` is `SELL`. -/
def longCount (l : List LiquidationEvent) : ℕ :=
  (l.filter (fun liq => liq.side == "SELL")).length

/-- `short_liqs` at line 273: number of events whose `side` is `BUY`. -/
def shortCount (l : List LiquidationEvent) : ℕ :=
  (l.filter (fun liq => liq.side == "BUY")).length

/-- Liquidation component of `calculate_sentiment_score` (lines 267-276),
as a function of the bitcoin liquidation history. -/
def skewContribution (l : List LiquidationEvent) : ℚ :=
  if l ≠ [] then
    if longCount l + shortCount l > 0 then
      ((shortCount l : ℚ) / ((longCount l : ℚ) + (shortCount l : ℚ)) - 1/2) * 60
    else 0
  else 0

/-- Funding-rate component of `calculate_sentiment_score` (lines 278-288).
`x or 0` on an optional float is `Option.getD` (a present `0.0` is falsy in
Python but `or` then yields the same value `0`). -/
def fundingContribution (btcF ethF : FundingData) : ℚ :=
  if (btcF.average.getD 0 + ethF.average.getD 0) / 2 > 1/50 then -25
  else if (btcF.average.getD 0 + ethF.average.getD 0) / 2 < 1/100 then 25
  else (3/200 - (btcF.average.getD 0 + ethF.average.getD 0) / 2) * 1250

/-- Momentum component of `calculate_sentiment_score` (lines 290-293). -/
def momentumContribution (btc eth : PriceData) : ℚ :=
  (if btc.change_24h > 0 then (25 : ℚ)/2 else -(25/2)) +
  (if eth.change_24h > 0 then (25 : ℚ)/2 else -(25/2))

/-- `calculate_change_from_643am` (lines 255-261): percent deviation from
the captured anchor, `none` when no anchor price exists for the key. -/
def calculate_change_from_643am (anchor : ReferenceAnchor) (current_price : ℚ)
    (crypto : String) : Option ℚ :=
  let ref_price : Option ℚ :=
    if crypto = "bitcoin" then anchor.bitcoin
    else if crypto = "ethereum" then anchor.ethereum
    else none
  match ref_price with
  | none => none
  | some r => some (((current_price - r) / r) * 100)

/-- Reference-deviation component of `calculate_sentiment_score`
(lines 295-301). -/
def referenceContribution (anchor : ReferenceAnchor) (btc eth : PriceData) : ℚ :=
  match calculate_change_from_643am anchor btc.price "bitcoin",
        calculate_change_from_643am anchor eth.price "ethereum" with
  | some b, some e => if (b + e) / 2 > 0 then 20 else -20
  | _, _ => 0

/-- `calculate_sentiment_score` (lines 263-303): the running `score` is the
sum of the four components in source order (the ethereum history is read at
line 269 into `eth_liqs` but never used afterwards), rounded at line 303. -/
def calculate_sentiment_score (liqs : LiquidationState) (anchor : ReferenceAnchor)
    (btc eth : PriceData) (btcF ethF : FundingData) : ℤ :=
  pyRound (skewContribution liqs.bitcoin + fundingContribution btcF ethF +
    momentumContribution btc eth + referenceContribution anchor btc eth)

/-- The truncation step of `process_liquidation` (lines 234-236): after an
append, keep only the last 20 entries (`[-20:]`) when length exceeds 20. -/
def keepLast20 (l : List LiquidationEvent) : List LiquidationEvent :=
  if l.length > 20 then l.drop (l.length - 20) else l

/-- `process_liquidation` (lines 223-238): stores the event under the key
`crypto_map` assigns to its symbol (`BTCUSDT` to bitcoin, `ETHUSDT` to
ethereum), truncating to 20; unrecognised symbols leave the state alone. -/
def process_liquidation (st : LiquidationState) (liq : LiquidationEvent) :
    LiquidationState :=
  if liq.symbol = "BTCUSDT" then
    { st with bitcoin := keepLast20 (st.bitcoin ++ [liq]) }
  else if liq.symbol = "ETHUSDT" then
    { st with ethereum := keepLast20 (st.ethereum ++ [liq]) }
  else st

/-- The per-message significance gate of `setup_liquidation_websocket`
(lines 211-213): only events with `value > 100000` reach
`process_liquidation`. -/
def handle_liquidation (st : LiquidationState) (liq : LiquidationEvent) :
    LiquidationState :=
  if liq.value > 100000 then process_liquidation st liq else st

/-- The average computation of `get_funding_rates` (lines 172-180): the
candidate rates are `binance` and `bybit` only; `average` is assigned only
when at least one of the two is present. -/
def computeAverage (fd : FundingData) : FundingData :=
  let valid_rates := [fd.binance, fd.bybit].filterMap id
  if valid_rates.length > 0 then
    { fd with average := some (valid_rates.sum / valid_rates.length) }
  else fd

/-- `capture_643am_price` (lines 240-253): when the local wall clock reads
hour 6 and minute 43, overwrite the whole anchor with the two current
prices and the instant, and persist (the second component `true` means
`save_reference_prices` was called); otherwise do nothing. -/
def capture_643am_price (anchor : ReferenceAnchor) (btc eth : PriceData)
    (est_time : LocalTime) : ReferenceAnchor × Bool :=
  if est_time.hour = 6 ∧ est_time.minute = 43 then
    (⟨some btc.price, some eth.price, some est_time⟩, true)
  else (anchor, false)

/-- `fetch_all_data` (lines 323-360), with the two network fetches
abstracted into `Option` arguments: if either fetch returned `None`, the
tick returns `None` (line 330) and state is untouched; otherwise capture
runs, the score is computed against the possibly-updated anchor, and a
`MarketData` snapshot is built.  Returns the emitted snapshot (if any)
and the anchor after the tick. -/
def fetch_all_data (price_data : Option (PriceData × PriceData))
    (funding_data : Option (FundingData × FundingData))
    (st : LiquidationState) (anchor : ReferenceAnchor)
    (est_time : LocalTime) (utc_now : String) :
    Option MarketData × ReferenceAnchor :=
  match price_data, funding_data with
  | some (btc, eth), some (btcF, ethF) =>
    let captured := capture_643am_price anchor btc eth est_time
    let anchor2 := captured.1
    let score := calculate_sentiment_score st anchor2 btc eth btcF ethF
    (some ⟨btc, eth, btcF, ethF, st.bitcoin, st.ethereum, score, anchor2, utc_now⟩,
      anchor2)
  | _, _ => (none, anchor)

end Wormboard

namespace Wormboard

/-- Claim C1: for bitcoin 60000 with +2 percent 24h change, ethereum 3000
with -1 percent, funding averages 0.005 and 0.03, empty bitcoin liquidation
history, and no captured anchor, `calculate_sentiment_score` returns
exactly -3. -/
theorem C1_end_to_end_score :
    calculate_sentiment_score ⟨[], []⟩ ⟨none, none, none⟩
      ⟨60000, 2, 0, 0, "t"⟩ ⟨3000, -1, 0, 0, "t"⟩
      { average := some (1/200) } { average := some (3/100) } = -3 := by
  norm_num [calculate_sentiment_score, skewContribution, fundingContribution,
    momentumContribution, referenceContribution, calculate_change_from_643am,
    pyRound, longCount, shortCount]

/-- A sample long-liquidation event of value 150000 on the bitcoin key. -/
def evA : LiquidationEvent :=
  ⟨"BTCUSDT", "SELL", 3, 50000, 150000, "06:00:02", "Binance"⟩

/-- A sample short-liquidation event of value 200000 on the bitcoin key. -/
def evBig : LiquidationEvent :=
  ⟨"BTCUSDT", "BUY", 4, 50000, 200000, "06:00:01", "Binance"⟩

/-- A sample recognised event whose value is exactly the 100000 threshold. -/
def evExactly100k : LiquidationEvent :=
  ⟨"BTCUSDT", "SELL", 2, 50000, 100000, "06:00:00", "Binance"⟩

/-- Claim C2 counterexample: on a tick where the price fetch succeeds but the
funding fetch fails, `fetch_all_data` emits nothing at all (the claim says a
snapshot is still emitted with the failed field absent). -/
theorem C2_counterexample :
    (fetch_all_data (some (⟨60000, 2, 0, 0, "t"⟩, ⟨3000, -1, 0, 0, "t"⟩)) none
      ⟨[], []⟩ ⟨none, none, none⟩ ⟨12, 0, 0⟩ "u").1 = none := rfl

/-- Claim C2 (amended): a snapshot is emitted on a tick exactly when BOTH the
price fetch and the funding fetch succeed; a failure of either single
provider skips the whole tick. -/
theorem C2_emission_iff_both_succeed (price_data : Option (PriceData × PriceData))
    (funding_data : Option (FundingData × FundingData)) (st : LiquidationState)
    (anchor : ReferenceAnchor) (est_time : LocalTime) (utc_now : String) :
    ((fetch_all_data price_data funding_data st anchor est_time utc_now).1).isSome
      = (price_data.isSome && funding_data.isSome) := by
  rcases price_data with _ | ⟨btc, eth⟩ <;>
    rcases funding_data with _ | ⟨btcF, ethF⟩ <;>
    simp [fetch_all_data]

/-- Claim C3 counterexample: a recognised event whose value is exactly 100000
is NOT stored — both histories stay empty (the claim says it is stored). -/
theorem C3_counterexample :
    evExactly100k.symbol = "BTCUSDT" ∧ evExactly100k.value = 100000 ∧
    handle_liquidation ⟨[], []⟩ evExactly100k = ⟨[], []⟩ := by
  refine ⟨rfl, rfl, ?_⟩
  norm_num [handle_liquidation, evExactly100k]

/-- Claim C3 (amended): an event is stored if and only if its symbol is
recognised (`BTCUSDT` or `ETHUSDT`) and its value is STRICTLY above the
100000 threshold; events at or below the threshold, and events with an
unrecognised symbol, leave both histories unchanged. -/
theorem C3_store_iff_significant (st : LiquidationState) (e : LiquidationEvent) :
    (¬ e.value > 100000 → handle_liquidation st e = st) ∧
    (e.symbol ≠ "BTCUSDT" → e.symbol ≠ "ETHUSDT" → handle_liquidation st e = st) ∧
    (e.value > 100000 → e.symbol = "BTCUSDT" →
      handle_liquidation st e = { st with bitcoin := keepLast20 (st.bitcoin ++ [e]) }) ∧
    (e.value > 100000 → e.symbol = "ETHUSDT" →
      handle_liquidation st e = { st with ethereum := keepLast20 (st.ethereum ++ [e]) }) := by
  unfold handle_liquidation process_liquidation
  refine ⟨fun h => by simp [h], fun h1 h2 => by simp [h1, h2],
    fun hv hs => ?_, fun hv hs => ?_⟩
  · simp [hv, hs]
  · have : e.symbol ≠ "BTCUSDT" := by simp [hs]
    simp [hv, hs, this]

/-- Claim C3 witness: a recognised event of value 200000 is appended to the
bitcoin history. -/
theorem C3_store_iff_significant_witness :
    handle_liquidation ⟨[], []⟩ evBig = ⟨keepLast20 ([] ++ [evBig]), []⟩ :=
  (C3_store_iff_significant ⟨[], []⟩ evBig).2.2.1 (by norm_num [evBig]) rfl

/-- The truncated append keeps at most 20 entries whenever the input had at
most 21. -/
lemma keepLast20_length_le (m : List LiquidationEvent) (h : m.length ≤ 21) :
    (keepLast20 m).length ≤ 20 := by
  unfold keepLast20
  split_ifs with h2
  · simp only [List.length_drop]
    omega
  · omega

/-- Claim C4: every history has length at most 20 after every operation (the
append of `process_liquidation` preserves the bound, and the whole
per-message handler preserves it on both keys), and appending to a full
history of 20 evicts exactly the oldest entry, keeping the remaining 20 in
insertion order. -/
theorem C4_bounded_history (l : List LiquidationEvent) (e : LiquidationEvent)
    (st : LiquidationState) :
    (l.length ≤ 20 → (keepLast20 (l ++ [e])).length ≤ 20) ∧
    (l.length = 20 → keepLast20 (l ++ [e]) = l.tail ++ [e]) ∧
    (st.bitcoin.length ≤ 20 → st.ethereum.length ≤ 20 →
      (handle_liquidation st e).bitcoin.length ≤ 20 ∧
      (handle_liquidation st e).ethereum.length ≤ 20) := by
  refine ⟨fun h => keepLast20_length_le _ (by simp; omega), fun h => ?_, fun hb he => ?_⟩
  · have hlen : (l ++ [e]).length = 21 := by simp [h]
    unfold keepLast20
    rw [hlen]
    norm_num
    cases l with
    | nil => simp at h
    | cons a as => simp
  · unfold handle_liquidation process_liquidation
    split_ifs <;>
      simp_all <;>
      exact keepLast20_length_le _ (by simp; omega)

/-- Claim C4 witness: appending a 21st event to a full history of 20 keeps
the last 20 in order with the new event at the end. -/
theorem C4_bounded_history_witness :
    keepLast20 (List.replicate 20 evA ++ [evBig])
      = (List.replicate 20 evA).tail ++ [evBig] :=
  (C4_bounded_history (List.replicate 20 evA) evBig ⟨[], []⟩).2.1 (by simp)

/-- Claim C5 counterexample: a record whose only present per-source rate is
`okx` gets NO derived average — the computation at lines 172-180 reads only
`binance` and `bybit` (the claim says one present rate suffices). -/
theorem C5_counterexample :
    ({ okx := some (1/100) } : FundingData).okx ≠ none ∧
    (computeAverage { okx := some (1/100) }).average = none :=
  ⟨by simp, rfl⟩

/-- Claim C5 (amended): for a record whose average is not yet assigned, the
derived average is defined iff `binance` or `bybit` is present, and equals
the arithmetic mean of the present rates among those two; `okx` never
contributes (the fetcher never populates it and the average ignores it). -/
theorem C5_average_from_binance_bybit (fd : FundingData) (h : fd.average = none) :
    ((computeAverage fd).average ≠ none ↔ (fd.binance ≠ none ∨ fd.bybit ≠ none)) ∧
    (∀ b, fd.binance = some b → fd.bybit = none →
      (computeAverage fd).average = some b) ∧
    (∀ y, fd.binance = none → fd.bybit = some y →
      (computeAverage fd).average = some y) ∧
    (∀ b y, fd.binance = some b → fd.bybit = some y →
      (computeAverage fd).average = some ((b + y) / 2)) := by
  obtain ⟨b?, y?, o?, a?⟩ := fd
  simp only at h
  subst h
  rcases b? with _ | b <;> rcases y? with _ | y <;>
    simp [computeAverage]

/-- Claim C5 witness: with binance 0.01 and bybit 0.03 present, the derived
average is their mean. -/
theorem C5_average_from_binance_bybit_witness :
    (computeAverage ⟨some (1/100), some (3/100), none, none⟩).average
      = some ((1/100 + 3/100) / 2) :=
  (C5_average_from_binance_bybit ⟨some (1/100), some (3/100), none, none⟩ rfl).2.2.2
    (1/100) (3/100) rfl rfl

/-- Claim C6: the anchor is overwritten with the current prices and the
capture instant, and persisted, exactly when the local wall clock reads
hour 6 and minute 43 (any second); at any other local time the anchor is
unchanged and nothing is persisted. -/
theorem C6_capture_at_643 (anchor : ReferenceAnchor) (btc eth : PriceData)
    (t : LocalTime) :
    (t.hour = 6 → t.minute = 43 →
      capture_643am_price anchor btc eth t
        = (⟨some btc.price, some eth.price, some t⟩, true)) ∧
    (¬ (t.hour = 6 ∧ t.minute = 43) →
      capture_643am_price anchor btc eth t = (anchor, false)) := by
  constructor
  · intro h1 h2
    simp [capture_643am_price, h1, h2]
  · intro h
    simp [capture_643am_price, h]

/-- Claim C6 witness: capture fires at 6:43:59 (seconds are irrelevant) and
does not fire at 6:42:00. -/
theorem C6_capture_at_643_witness :
    capture_643am_price ⟨none, none, none⟩ ⟨60000, 2, 0, 0, "t"⟩
        ⟨3000, -1, 0, 0, "t"⟩ ⟨6, 43, 59⟩
      = (⟨some 60000, some 3000, some ⟨6, 43, 59⟩⟩, true) ∧
    capture_643am_price ⟨none, none, none⟩ ⟨60000, 2, 0, 0, "t"⟩
        ⟨3000, -1, 0, 0, "t"⟩ ⟨6, 42, 0⟩
      = (⟨none, none, none⟩, false) :=
  ⟨(C6_capture_at_643 _ _ _ _).1 rfl rfl, (C6_capture_at_643 _ _ _ _).2 (by decide)⟩

/-- Claim C9: the percent deviation is `none` exactly for an instrument with
no captured anchor price, and otherwise equals
`(current - anchor) / anchor * 100`; in particular anchor 50000 and current
55000 give exactly 10. -/
theorem C9_percent_deviation (anchor : ReferenceAnchor) (c : ℚ) :
    (anchor.bitcoin = none → calculate_change_from_643am anchor c "bitcoin" = none) ∧
    (∀ r, anchor.bitcoin = some r →
      calculate_change_from_643am anchor c "bitcoin" = some (((c - r) / r) * 100)) ∧
    (anchor.ethereum = none → calculate_change_from_643am anchor c "ethereum" = none) ∧
    (∀ r, anchor.ethereum = some r →
      calculate_change_from_643am anchor c "ethereum" = some (((c - r) / r) * 100)) ∧
    calculate_change_from_643am ⟨some 50000, none, none⟩ 55000 "bitcoin" = some 10 := by
  refine ⟨fun h => ?_, fun r h => ?_, fun h => ?_, fun r h => ?_, ?_⟩
  · simp [calculate_change_from_643am, h]
  · simp [calculate_change_from_643am, h]
  · simp [calculate_change_from_643am, h]
  · simp [calculate_change_from_643am, h]
  · norm_num [calculate_change_from_643am]

/-- Claim C9 witness: with a captured bitcoin anchor of 50000, current price
55000 yields the deviation formula value. -/
theorem C9_percent_deviation_witness :
    calculate_change_from_643am ⟨some 50000, some 3000, none⟩ 55000 "bitcoin"
      = some (((55000 - 50000) / 50000) * 100) :=
  (C9_percent_deviation ⟨some 50000, some 3000, none⟩ 55000).2.1 50000 rfl

/-- Claim C10: the sentiment score does not depend on the ethereum
liquidation history — two aggregator states that differ only there yield
the same score. -/
theorem C10_score_ignores_eth_history (lb le1 le2 : List LiquidationEvent)
    (anchor : ReferenceAnchor) (btc eth : PriceData) (btcF ethF : FundingData) :
    calculate_sentiment_score ⟨lb, le1⟩ anchor btc eth btcF ethF
      = calculate_sentiment_score ⟨lb, le2⟩ anchor btc eth btcF ethF := rfl

/-- The liquidation-skew component always lies in the interval [-30, 30]. -/
lemma skew_bound (l : List LiquidationEvent) :
    -30 ≤ skewContribution l ∧ skewContribution l ≤ 30 := by
  unfold skewContribution
  split_ifs with h1 h2
  · have hT : (0:ℚ) < (longCount l : ℚ) + (shortCount l : ℚ) := by
      have : 0 < longCount l + shortCount l := h2
      exact_mod_cast this
    have h0 : (0:ℚ) ≤ (shortCount l : ℚ) / ((longCount l : ℚ) + (shortCount l : ℚ)) :=
      div_nonneg (by positivity) hT.le
    have hle : (shortCount l : ℚ) / ((longCount l : ℚ) + (shortCount l : ℚ)) ≤ 1 := by
      rw [div_le_one hT]
      exact le_add_of_nonneg_left (by positivity)
    constructor <;> nlinarith
  · norm_num
  · norm_num

/-- The funding component always lies in the interval [-25, 25] (and in the
interpolation branch in fact in [-25/4, 25/4]). -/
lemma funding_bound (btcF ethF : FundingData) :
    -25 ≤ fundingContribution btcF ethF ∧ fundingContribution btcF ethF ≤ 25 := by
  unfold fundingContribution
  set a : ℚ := (btcF.average.getD 0 + ethF.average.getD 0) / 2 with ha
  clear_value a
  split_ifs with h1 h2
  · norm_num
  · norm_num
  · push_neg at h1 h2
    constructor <;> nlinarith

/-- The momentum component always lies in the interval [-25, 25]. -/
lemma momentum_bound (btc eth : PriceData) :
    -25 ≤ momentumContribution btc eth ∧ momentumContribution btc eth ≤ 25 := by
  unfold momentumContribution
  split_ifs <;> norm_num

/-- The reference-deviation component always lies in the interval [-20, 20]. -/
lemma reference_bound (anchor : ReferenceAnchor) (btc eth : PriceData) :
    -20 ≤ referenceContribution anchor btc eth ∧
    referenceContribution anchor btc eth ≤ 20 := by
  unfold referenceContribution
  rcases calculate_change_from_643am anchor btc.price "bitcoin" with _ | b
  · norm_num
  · rcases calculate_change_from_643am anchor eth.price "ethereum" with _ | e
    · norm_num
    · dsimp only
      split_ifs <;> norm_num

/-- Python rounding returns either the floor or the floor plus one. -/
lemma pyRound_mem (q : ℚ) : pyRound q = ⌊q⌋ ∨ pyRound q = ⌊q⌋ + 1 := by
  unfold pyRound
  split_ifs <;> simp

/-- Integer bounds on the argument carry over to `pyRound`, losing at most
one at the top. -/
lemma pyRound_bounds (q : ℚ) (a b : ℤ) (ha : (a:ℚ) ≤ q) (hb : q ≤ (b:ℚ)) :
    a ≤ pyRound q ∧ pyRound q ≤ b + 1 := by
  have h1 : a ≤ ⌊q⌋ := Int.le_floor.mpr ha
  have h2 : ⌊q⌋ ≤ b := by
    have := Int.floor_le_floor hb
    rwa [Int.floor_intCast] at this
  rcases pyRound_mem q with h | h <;> rw [h] <;> omega

/-- Claim C7: for every bitcoin liquidation history the skew component lies
in [-30, 30]; it is 0 on the empty history, -30 when the history is
non-empty and every event is a long liquidation (`SELL`), +30 when every
event is a short liquidation (`BUY`), and 0 whenever the two counts are
exactly balanced. -/
theorem C7_skew_component (l : List LiquidationEvent) :
    (-30 ≤ skewContribution l ∧ skewContribution l ≤ 30) ∧
    (l = [] → skewContribution l = 0) ∧
    (l ≠ [] → (∀ e ∈ l, e.side = "SELL") → skewContribution l = -30) ∧
    (l ≠ [] → (∀ e ∈ l, e.side = "BUY") → skewContribution l = 30) ∧
    (longCount l = shortCount l → skewContribution l = 0) := by
  refine ⟨skew_bound l, fun h => by simp [skewContribution, h],
    fun hne hall => ?_, fun hne hall => ?_, fun hbal => ?_⟩
  · have hS : shortCount l = 0 := by
      unfold shortCount
      rw [List.length_eq_zero, List.filter_eq_nil_iff]
      intro e he
      simp [hall e he]
    have hL : longCount l = l.length := by
      unfold longCount
      congr 1
      rw [List.filter_eq_self]
      intro e he
      simp [hall e he]
    have hpos : 0 < l.length := List.length_pos.mpr hne
    have hposQ : (0:ℚ) < (l.length : ℚ) := by exact_mod_cast hpos
    unfold skewContribution
    rw [if_pos hne, if_pos (by omega : longCount l + shortCount l > 0), hS, hL]
    push_cast
    rw [add_zero, zero_div]
    norm_num
  · have hL : longCount l = 0 := by
      unfold longCount
      rw [List.length_eq_zero, List.filter_eq_nil_iff]
      intro e he
      simp [hall e he]
    have hS : shortCount l = l.length := by
      unfold shortCount
      congr 1
      rw [List.filter_eq_self]
      intro e he
      simp [hall e he]
    have hpos : 0 < l.length := List.length_pos.mpr hne
    have hposQ : (0:ℚ) < (l.length : ℚ) := by exact_mod_cast hpos
    unfold skewContribution
    rw [if_pos hne, if_pos (by omega : longCount l + shortCount l > 0), hS, hL]
    push_cast
    rw [zero_add, div_self hposQ.ne.symm]
    norm_num
  · unfold skewContribution
    split_ifs with h1 h2
    · rw [hbal]
      have hpos : 0 < shortCount l := by omega
      have hposQ : (0:ℚ) < (shortCount l : ℚ) := by exact_mod_cast hpos
      have : (shortCount l : ℚ) / ((shortCount l : ℚ) + (shortCount l : ℚ)) = 1/2 := by
        field_simp
        ring
      rw [this]
      norm_num
    · rfl
    · rfl

/-- Claim C7 witness: a one-event all-long history gives -30, a one-event
all-short history gives +30, and the empty history gives 0. -/
theorem C7_skew_component_witness :
    skewContribution [evA] = -30 ∧ skewContribution [evBig] = 30 ∧
    skewContribution [] = 0 :=
  ⟨(C7_skew_component [evA]).2.2.1 (by simp) (by simp [evA]),
   (C7_skew_component [evBig]).2.2.2.1 (by simp) (by simp [evBig]),
   (C7_skew_component []).2.1 rfl⟩

/-- Claim C8: for every input state the sentiment score lies in the integer
interval [-105, 105]; the algorithm applies no clamp — the score is exactly
the Python rounding of the sum of the four components, and that sum already
lies in [-100, 100]. -/
theorem C8_score_bounded (liqs : LiquidationState) (anchor : ReferenceAnchor)
    (btc eth : PriceData) (btcF ethF : FundingData) :
    -105 ≤ calculate_sentiment_score liqs anchor btc eth btcF ethF ∧
    calculate_sentiment_score liqs anchor btc eth btcF ethF ≤ 105 := by
  obtain ⟨hs1, hs2⟩ := skew_bound liqs.bitcoin
  obtain ⟨hf1, hf2⟩ := funding_bound btcF ethF
  obtain ⟨hm1, hm2⟩ := momentum_bound btc eth
  obtain ⟨hr1, hr2⟩ := reference_bound anchor btc eth
  unfold calculate_sentiment_score
  have hlo : ((-100 : ℤ) : ℚ) ≤ skewContribution liqs.bitcoin +
      fundingContribution btcF ethF + momentumContribution btc eth +
      referenceContribution anchor btc eth := by
    push_cast
    linarith
  have hhi : skewContribution liqs.bitcoin + fundingContribution btcF ethF +
      momentumContribution btc eth + referenceContribution anchor btc eth
      ≤ ((100 : ℤ) : ℚ) := by
    push_cast
    linarith
  have := pyRound_bounds _ (-100) 100 hlo hhi
  omega

end Wormboard
